import Mathlib

/-
Verification of the callout aggregation core of obsidian-callout-suggestions
(src/callouts.ts): the source-key codec, the shared diff utility, the four
source registries, and the CalloutCollection cache with its diff-based
incremental maintenance.

Modelling conventions:
- JS strings are Lean `String`s; `startsWith`/`substring` are embedded via
  the underlying character list.
- A JS `Set` (insertion-ordered, duplicate-free) is a Lean `List` together
  with `setAdd` (append when new) and `setDelete`; `new Set(xs)` is
  `listToSet xs`.
- A JS `Map` (insertion-ordered, unique keys) is an association list with
  `mapGet` / `mapSet` (replace in place, else append) / `mapDelete`.
- Mutation is explicit state passing; a registry mutator returns the new
  registry state together with the list of diff reports it pushes to the
  cache, in order.
-/

namespace CalloutSuggestions

/-- CalloutSource from obsidian-callout-manager: a closed variant of the four
source descriptors. -/
inductive CalloutSource where
  | builtin : CalloutSource
  | snippet (snippet : String) : CalloutSource
  | theme (theme : String) : CalloutSource
  | custom : CalloutSource
deriving DecidableEq

/-- JS String.prototype.startsWith, on the character lists. -/
def jsStartsWith (s p : String) : Bool :=
  p.data.isPrefixOf s.data

/-- JS String.prototype.substring(n), on the character lists. -/
def jsSubstringFrom (s : String) (n : Nat) : String :=
  String.mk (s.data.drop n)

/-- sourceToKey from callouts.ts: encode a descriptor as a string key. -/
def sourceToKey : CalloutSource → String
  | .builtin => "builtin"
  | .snippet s => "snippet:" ++ s
  | .theme t => "theme:" ++ t
  | .custom => "custom"

/-- sourceFromKey from callouts.ts: decode a key back into a descriptor.
The source throws on an unrecognized key; the thrown case is `none`. -/
def sourceFromKey (sourceKey : String) : Option CalloutSource :=
  if sourceKey = "builtin" then some .builtin
  else if sourceKey = "custom" then some .custom
  else if jsStartsWith sourceKey "snippet:" then
    some (.snippet (jsSubstringFrom sourceKey ("snippet:".length)))
  else if jsStartsWith sourceKey "theme:" then
    some (.theme (jsSubstringFrom sourceKey ("theme:".length)))
  else none

theorem data_append (a b : String) : (a ++ b).data = a.data ++ b.data := rfl

theorem string_eq_iff_data (a b : String) : a = b ↔ a.data = b.data := by
  constructor
  · intro h; rw [h]
  · intro h; cases a; cases b; cases h; rfl

theorem isPrefixOf_append_self (l t : List Char) : l.isPrefixOf (l ++ t) = true := by
  induction l with
  | nil => cases t <;> rfl
  | cons a as ih => simp [List.isPrefixOf, ih]

theorem snippetKey_ne_builtin (s : String) : ("snippet:" ++ s) ≠ "builtin" := by
  intro h
  have h2 : ("snippet:" ++ s).data = ("builtin" : String).data := by rw [h]
  rw [data_append] at h2
  injection h2 with h3 h4
  exact absurd h3 (by decide)

theorem snippetKey_ne_custom (s : String) : ("snippet:" ++ s) ≠ "custom" := by
  intro h
  have h2 : ("snippet:" ++ s).data = ("custom" : String).data := by rw [h]
  rw [data_append] at h2
  injection h2 with h3 h4
  exact absurd h3 (by decide)

theorem themeKey_ne_builtin (t : String) : ("theme:" ++ t) ≠ "builtin" := by
  intro h
  have h2 : ("theme:" ++ t).data = ("builtin" : String).data := by rw [h]
  rw [data_append] at h2
  injection h2 with h3 h4
  exact absurd h3 (by decide)

theorem themeKey_ne_custom (t : String) : ("theme:" ++ t) ≠ "custom" := by
  intro h
  have h2 : ("theme:" ++ t).data = ("custom" : String).data := by rw [h]
  rw [data_append] at h2
  injection h2 with h3 h4
  exact absurd h3 (by decide)

theorem startsWith_snippetKey (s : String) :
    jsStartsWith ("snippet:" ++ s) "snippet:" = true := by
  unfold jsStartsWith
  rw [data_append]
  exact isPrefixOf_append_self _ _

theorem startsWith_themeKey (t : String) :
    jsStartsWith ("theme:" ++ t) "theme:" = true := by
  unfold jsStartsWith
  rw [data_append]
  exact isPrefixOf_append_self _ _

theorem themeKey_not_startsWith_snippet (t : String) :
    jsStartsWith ("theme:" ++ t) "snippet:" = false := rfl

theorem substringFrom_snippetKey (s : String) :
    jsSubstringFrom ("snippet:" ++ s) ("snippet:".length) = s := by
  obtain ⟨l⟩ := s
  show String.mk (List.drop (("snippet:" : String).data.length)
    (("snippet:" : String).data ++ l)) = String.mk l
  rw [List.drop_left]

theorem substringFrom_themeKey (t : String) :
    jsSubstringFrom ("theme:" ++ t) ("theme:".length) = t := by
  obtain ⟨l⟩ := t
  show String.mk (List.drop (("theme:" : String).data.length)
    (("theme:" : String).data ++ l)) = String.mk l
  rw [List.drop_left]

/-- C3: decoding the encoding of any source descriptor yields the descriptor
again, including snippet/theme sub-ids containing colons or the literal
substrings "builtin"/"custom": sourceFromKey (sourceToKey d) = some d. -/
theorem sourceFromKey_sourceToKey (d : CalloutSource) :
    sourceFromKey (sourceToKey d) = some d := by
  cases d with
  | builtin => rfl
  | custom => rfl
  | snippet s =>
      show sourceFromKey ("snippet:" ++ s) = some (.snippet s)
      unfold sourceFromKey
      rw [if_neg (snippetKey_ne_builtin s), if_neg (snippetKey_ne_custom s),
        if_pos (startsWith_snippetKey s)]
      rw [substringFrom_snippetKey s]
  | theme t =>
      show sourceFromKey ("theme:" ++ t) = some (.theme t)
      unfold sourceFromKey
      rw [if_neg (themeKey_ne_builtin t), if_neg (themeKey_ne_custom t)]
      rw [themeKey_not_startsWith_snippet t]
      rw [if_neg (by decide : ¬ (false = true)), if_pos (startsWith_themeKey t)]
      rw [substringFrom_themeKey t]

/-! JS Set and Map models. -/

/-- JS Set.prototype.add: appends at the end when the element is new. -/
def setAdd (s : List String) (x : String) : List String :=
  if x ∈ s then s else s ++ [x]

/-- JS Set.prototype.delete: removes the element (duplicate-free sets, so
removing every occurrence agrees with the JS behavior). -/
def setDelete : List String → String → List String
  | [], _ => []
  | y :: rest, x => if y = x then setDelete rest x else y :: setDelete rest x

/-- JS new Set(xs): dedupe keeping first occurrences, in order. -/
def listToSet (xs : List String) : List String :=
  xs.foldl setAdd []

/-- JS Map.prototype.get. -/
def mapGet {β : Type} : List (String × β) → String → Option β
  | [], _ => none
  | (k2, v) :: rest, k => if k2 = k then some v else mapGet rest k

/-- JS Map.prototype.set: replace in place when the key exists, else append. -/
def mapSet {β : Type} : List (String × β) → String → β → List (String × β)
  | [], k, v => [(k, v)]
  | (k2, v2) :: rest, k, v =>
      if k2 = k then (k, v) :: rest else (k2, v2) :: mapSet rest k v

/-- JS Map.prototype.delete (unique keys, so removing every entry with the
key agrees with the JS behavior). -/
def mapDelete {β : Type} : List (String × β) → String → List (String × β)
  | [], _ => []
  | (k2, v2) :: rest, k =>
      if k2 = k then mapDelete rest k else (k2, v2) :: mapDelete rest k

theorem mem_setAdd (s : List String) (x a : String) :
    a ∈ setAdd s x ↔ a ∈ s ∨ a = x := by
  unfold setAdd
  by_cases h : x ∈ s
  · rw [if_pos h]
    constructor
    · exact Or.inl
    · rintro (ha | rfl) <;> [exact ha; exact h]
  · rw [if_neg h]
    simp

theorem setAdd_ne_nil (s : List String) (x : String) : setAdd s x ≠ [] := by
  unfold setAdd
  by_cases h : x ∈ s
  · rw [if_pos h]
    intro hnil
    rw [hnil] at h
    exact absurd h (List.not_mem_nil x)
  · rw [if_neg h]
    simp

theorem mem_setDelete (s : List String) (x a : String) :
    a ∈ setDelete s x ↔ a ∈ s ∧ a ≠ x := by
  induction s with
  | nil => simp [setDelete]
  | cons y rest ih =>
      unfold setDelete
      by_cases h : y = x
      · subst h
        rw [if_pos rfl, ih]
        simp only [List.mem_cons]
        constructor
        · rintro ⟨ha, hax⟩
          exact ⟨Or.inr ha, hax⟩
        · rintro ⟨hy, hax⟩
          rcases hy with rfl | ha
          · exact absurd rfl hax
          · exact ⟨ha, hax⟩
      · rw [if_neg h]
        simp only [List.mem_cons, ih]
        constructor
        · rintro (rfl | ⟨ha, hax⟩)
          · exact ⟨Or.inl rfl, fun hx => h (by rw [hx])⟩
          · exact ⟨Or.inr ha, hax⟩
        · rintro ⟨hy, hax⟩
          rcases hy with rfl | ha
          · exact Or.inl rfl
          · exact Or.inr ⟨ha, hax⟩

theorem mem_foldl_setAdd (xs : List String) (acc : List String) (a : String) :
    a ∈ xs.foldl setAdd acc ↔ a ∈ acc ∨ a ∈ xs := by
  induction xs generalizing acc with
  | nil => simp
  | cons x rest ih =>
      rw [List.foldl_cons, ih, mem_setAdd]
      constructor
      · rintro ((ha | rfl) | ha)
        · exact Or.inl ha
        · exact Or.inr (List.mem_cons_self a rest)
        · exact Or.inr (List.mem_cons_of_mem x ha)
      · rintro (ha | ha)
        · exact Or.inl (Or.inl ha)
        · rcases List.mem_cons.mp ha with rfl | ha
          · exact Or.inl (Or.inr rfl)
          · exact Or.inr ha

theorem mem_listToSet (xs : List String) (a : String) :
    a ∈ listToSet xs ↔ a ∈ xs := by
  unfold listToSet
  rw [mem_foldl_setAdd]
  simp

theorem mapGet_cons {β : Type} (a : String) (b : β) (rest : List (String × β))
    (k : String) :
    mapGet ((a, b) :: rest) k = if a = k then some b else mapGet rest k := rfl

theorem mapSet_cons {β : Type} (a : String) (b : β) (rest : List (String × β))
    (k : String) (v : β) :
    mapSet ((a, b) :: rest) k v
      = if a = k then (k, v) :: rest else (a, b) :: mapSet rest k v := rfl

theorem mapDelete_cons {β : Type} (a : String) (b : β) (rest : List (String × β))
    (k : String) :
    mapDelete ((a, b) :: rest) k
      = if a = k then mapDelete rest k else (a, b) :: mapDelete rest k := rfl

theorem mapGet_mapSet_self {β : Type} (m : List (String × β)) (k : String) (v : β) :
    mapGet (mapSet m k v) k = some v := by
  induction m with
  | nil => simp [mapSet, mapGet]
  | cons e rest ih =>
      obtain ⟨a, b⟩ := e
      rw [mapSet_cons]
      by_cases h : a = k
      · rw [if_pos h, mapGet_cons, if_pos rfl]
      · rw [if_neg h, mapGet_cons, if_neg h]
        exact ih

theorem mapGet_mapSet_ne {β : Type} (m : List (String × β)) (k k2 : String) (v : β)
    (hne : k2 ≠ k) : mapGet (mapSet m k v) k2 = mapGet m k2 := by
  induction m with
  | nil =>
      show mapGet [(k, v)] k2 = mapGet ([] : List (String × β)) k2
      rw [mapGet_cons, if_neg (fun hh : k = k2 => hne (Eq.symm hh))]
  | cons e rest ih =>
      obtain ⟨a, b⟩ := e
      rw [mapSet_cons]
      by_cases h : a = k
      · rw [if_pos h, mapGet_cons, mapGet_cons,
          if_neg (fun hh : k = k2 => hne (Eq.symm hh)),
          if_neg (fun hh : a = k2 => hne (hh.symm.trans h))]
      · rw [if_neg h, mapGet_cons, mapGet_cons]
        by_cases h2 : a = k2
        · rw [if_pos h2, if_pos h2]
        · rw [if_neg h2, if_neg h2]
          exact ih

theorem mapGet_mapDelete_self {β : Type} (m : List (String × β)) (k : String) :
    mapGet (mapDelete m k) k = none := by
  induction m with
  | nil => rfl
  | cons e rest ih =>
      obtain ⟨a, b⟩ := e
      rw [mapDelete_cons]
      by_cases h : a = k
      · rw [if_pos h]
        exact ih
      · rw [if_neg h, mapGet_cons, if_neg h]
        exact ih

theorem mapGet_mapDelete_ne {β : Type} (m : List (String × β)) (k k2 : String)
    (hne : k2 ≠ k) : mapGet (mapDelete m k) k2 = mapGet m k2 := by
  induction m with
  | nil => rfl
  | cons e rest ih =>
      obtain ⟨a, b⟩ := e
      rw [mapDelete_cons]
      by_cases h : a = k
      · rw [if_pos h, ih, mapGet_cons,
          if_neg (fun hh : a = k2 => hne (hh.symm.trans h))]
      · rw [if_neg h, mapGet_cons, mapGet_cons]
        by_cases h2 : a = k2
        · rw [if_pos h2, if_pos h2]
        · rw [if_neg h2, if_neg h2]
          exact ih

/-! The shared diff utility and the diff-report type. -/

/-- Result of the diff function in callouts.ts. -/
structure DiffResult (α : Type) where
  added : List α
  removed : List α
  same : List α
deriving DecidableEq

/-- diff from callouts.ts: iterate the before-set, pushing each element onto
same or removed according to membership in the after-set; then iterate the
after-set, pushing elements absent from the before-set onto added. Pushing in
iteration order is List.filter. -/
def diff {α : Type} [DecidableEq α] (before after : List α) : DiffResult α :=
  { added := after.filter (fun x => decide (x ∉ before))
  , removed := before.filter (fun x => decide (x ∉ after))
  , same := before.filter (fun x => decide (x ∈ after)) }

/-- The diff batch a registry reports to the cache. -/
structure DiffData where
  added : List String
  removed : List String
  changed : List String
deriving DecidableEq

theorem mem_diff_added {α : Type} [DecidableEq α] (before after : List α) (x : α) :
    x ∈ (diff before after).added ↔ x ∈ after ∧ x ∉ before := by
  unfold diff
  simp [List.mem_filter]

theorem mem_diff_removed {α : Type} [DecidableEq α] (before after : List α) (x : α) :
    x ∈ (diff before after).removed ↔ x ∈ before ∧ x ∉ after := by
  unfold diff
  simp [List.mem_filter]

theorem mem_diff_same {α : Type} [DecidableEq α] (before after : List α) (x : α) :
    x ∈ (diff before after).same ↔ x ∈ before ∧ x ∈ after := by
  unfold diff
  simp [List.mem_filter]

theorem count_filter_eq {α : Type} [DecidableEq α] (l : List α) (p : α → Bool) (x : α) :
    List.count x (l.filter p) = if p x then List.count x l else 0 := by
  induction l with
  | nil => simp
  | cons a rest ih =>
      by_cases hp : p a
      · rw [List.filter_cons_of_pos hp]
        by_cases hx : a = x
        · subst hx
          rw [List.count_cons_self, List.count_cons_self, ih, if_pos hp]
          rw [if_pos hp]
        · rw [List.count_cons_of_ne (fun hh => hx hh.symm),
            List.count_cons_of_ne (fun hh => hx hh.symm), ih]
      · rw [List.filter_cons_of_neg hp]
        by_cases hx : a = x
        · subst hx
          rw [List.count_cons_self, ih]
          rw [if_neg hp, if_neg hp]
        · rw [List.count_cons_of_ne (fun hh => hx hh.symm), ih]

/-- C10: the shared diff utility is a correct set difference. Membership in
added / removed / same is exactly after-minus-before / before-minus-after /
intersection, and for duplicate-free inputs every element of the union of
before and after occurs exactly once across the three output lists. -/
theorem diff_correct {α : Type} [DecidableEq α] (before after : List α) :
    (∀ x, x ∈ (diff before after).added ↔ x ∈ after ∧ x ∉ before)
    ∧ (∀ x, x ∈ (diff before after).removed ↔ x ∈ before ∧ x ∉ after)
    ∧ (∀ x, x ∈ (diff before after).same ↔ x ∈ before ∧ x ∈ after)
    ∧ (before.Nodup → after.Nodup → ∀ x, (x ∈ before ∨ x ∈ after) →
        List.count x
          ((diff before after).added ++ (diff before after).removed
            ++ (diff before after).same) = 1) := by
  refine ⟨mem_diff_added before after, mem_diff_removed before after,
    mem_diff_same before after, ?_⟩
  intro hb ha x hx
  rw [List.count_append, List.count_append]
  unfold diff
  rw [count_filter_eq, count_filter_eq, count_filter_eq]
  by_cases hxb : x ∈ before
  · by_cases hxa : x ∈ after
    · rw [if_neg (by simpa using hxb), if_neg (by simpa using hxa),
        if_pos (by simpa using hxa)]
      simpa using List.count_eq_one_of_mem hb hxb
    · rw [if_neg (by simpa using hxb), if_pos (by simpa using hxa),
        if_neg (by simpa using hxa)]
      simpa using List.count_eq_one_of_mem hb hxb
  · rcases hx with hx | hxa
    · exact absurd hx hxb
    · rw [if_pos (by simpa using hxb), if_neg (by simpa using hxa),
        if_pos (by simpa using hxa)]
      rw [List.count_eq_zero_of_not_mem hxb]
      simpa using List.count_eq_one_of_mem ha hxa

/-- C10 witness: concrete evaluation of diff_correct. -/
theorem diff_correct_witness :
    List.count "tip"
      ((diff ["tip", "warn"] ["tip", "note"]).added
        ++ (diff ["tip", "warn"] ["tip", "note"]).removed
        ++ (diff ["tip", "warn"] ["tip", "note"]).same) = 1
    ∧ ("note" ∈ (diff ["tip", "warn"] ["tip", "note"]).added
        ↔ "note" ∈ ["tip", "note"] ∧ "note" ∉ ["tip", "warn"]) := by
  constructor
  · exact (diff_correct ["tip", "warn"] ["tip", "note"]).2.2.2 (by decide) (by decide)
      "tip" (by decide)
  · exact (diff_correct ["tip", "warn"] ["tip", "note"]).1 "note"

/-! Source registries. Each mutator returns the new registry state together
with the ordered list of (source, diff) reports it pushes to the cache via
the invalidate callback. -/

/-- CalloutCollectionSnippets.set from callouts.ts. -/
def snippetsSet (data : List (String × List String)) (id : String)
    (callouts : List String) :
    List (String × List String) × List (CalloutSource × DiffData) :=
  let old := mapGet data id
  let updated := listToSet callouts
  let data2 := mapSet data id updated
  match old with
  | none =>
      (data2, [(.snippet id, { added := callouts, changed := [], removed := [] })])
  | some o =>
      let diffs := diff o updated
      (data2, [(.snippet id,
        { added := diffs.added, removed := diffs.removed, changed := diffs.same })])

/-- CalloutCollectionSnippets.delete from callouts.ts. -/
def snippetsDelete (data : List (String × List String)) (id : String) :
    List (String × List String) × List (CalloutSource × DiffData) :=
  let old := mapGet data id
  let data2 := mapDelete data id
  match old with
  | none => (data2, [])
  | some o =>
      (data2, [(.snippet id, { added := [], changed := [], removed := o })])

/-- CalloutCollectionObsidian.set from callouts.ts. -/
def builtinSet (data : List String) (callouts : List String) :
    List String × List (CalloutSource × DiffData) :=
  let old := data
  let updated := listToSet callouts
  let diffs := diff old updated
  (updated, [(.builtin,
    { added := diffs.added, removed := diffs.removed, changed := diffs.same })])

/-- CalloutCollectionTheme state: the name set and the active theme id.
The constructor initializes oldTheme to the empty string. -/
structure ThemeReg where
  data : List String
  oldTheme : Option String
deriving DecidableEq

/-- CalloutCollectionTheme.set from callouts.ts. The source assigns
this.oldTheme = theme before testing `this.oldTheme === theme`, so the test
reads the freshly assigned field. -/
def themeSet (r : ThemeReg) (theme : String) (callouts : List String) :
    ThemeReg × List (CalloutSource × DiffData) :=
  let old := r.data
  let oldTheme := r.oldTheme
  let updated := listToSet callouts
  let r2 : ThemeReg := { data := updated, oldTheme := some theme }
  if r2.oldTheme = some theme then
    let diffs := diff old updated
    (r2, [(.theme theme,
      { added := diffs.added, removed := diffs.removed, changed := diffs.same })])
  else
    (r2,
      [(.theme (oldTheme.getD ""), { added := [], removed := old, changed := [] }),
       (.theme theme, { added := callouts, removed := [], changed := [] })])

/-- CalloutCollectionTheme.delete from callouts.ts. -/
def themeDelete (r : ThemeReg) : ThemeReg × List (CalloutSource × DiffData) :=
  let old := r.data
  let oldTheme := r.oldTheme
  let r2 : ThemeReg := { data := [], oldTheme := none }
  (r2, [(.theme (oldTheme.getD ""), { added := [], removed := old, changed := [] })])

/-- JS Array.prototype.findIndex: index of the first match, -1 when absent. -/
def jsFindIndex (data : List String) (id : String) : Int :=
  match data.findIdx? (fun e => e == id) with
  | some n => (n : Int)
  | none => -1

/-- JS Array.prototype.splice(start, 1): the effective start clamps a negative
start to length + start (at least 0) and a large start to length. -/
def jsSplice1 (data : List String) (start : Int) : List String :=
  let s : Nat := if start < 0 then (data.length + start).toNat
                 else min start.toNat data.length
  data.take s ++ data.drop (s + 1)

/-- CalloutCollectionCustom.add from callouts.ts. -/
def customAdd (data : List String) (ids : List String) :
    List String × List (CalloutSource × DiffData) :=
  let step : List String × List String → String → List String × List String :=
    fun acc id =>
      if id ∈ acc.1 then acc else (acc.1 ++ [id], acc.2 ++ [id])
  let res := ids.foldl step (data, [])
  if res.2.length > 0 then
    (res.1, [(.custom, { added := res.2, removed := [], changed := [] })])
  else
    (res.1, [])

/-- One iteration of the loop in CalloutCollectionCustom.delete. The source
tests `index !== undefined`, but findIndex returns a number (-1 when absent),
never undefined, so the branch is always taken and the splice runs even when
the id was not found. -/
def customDeleteStep (acc : List String × List String) (id : String) :
    List String × List String :=
  let index := jsFindIndex acc.1 id
  (jsSplice1 acc.1 index, acc.2 ++ [id])

/-- CalloutCollectionCustom.delete from callouts.ts. -/
def customDelete (data : List String) (ids : List String) :
    List String × List (CalloutSource × DiffData) :=
  let res := ids.foldl customDeleteStep (data, [])
  if res.2.length > 0 then
    (res.1, [(.custom, { added := [], removed := res.2, changed := [] })])
  else
    (res.1, [])

/-- CalloutCollectionCustom.clear from callouts.ts. -/
def customClear (data : List String) :
    List String × List (CalloutSource × DiffData) :=
  ([], [(.custom, { added := [], removed := data, changed := [] })])

/-! The CalloutCollection cache. The resolver's intrinsic output type is an
arbitrary type parameter Props; a resolved callout is the resolver output
plus the provenance list set by doResolve (sourceFromKey may fail, so each
provenance element is an Option). -/

/-- The resolved shape of a callout: intrinsic properties plus provenance. -/
structure ResolvedCallout (Props : Type) where
  props : Props
  sources : List (Option CalloutSource)
deriving DecidableEq

/-- CachedCallout from callouts.ts. -/
structure CachedCallout (Props : Type) where
  id : String
  sources : List String
  callout : Option (ResolvedCallout Props)
deriving DecidableEq

/-- The cache-owned state of CalloutCollection. -/
structure CalloutCollection (Props : Type) where
  invalidated : List String
  invalidationCount : Nat
  cacheById : List (String × CachedCallout Props)
  cached : Bool
deriving DecidableEq

/-- A snapshot of the four registries, read by buildCache. -/
structure Registries where
  builtinData : List String
  themeData : List String
  themeOld : Option String
  snippetsData : List (String × List String)
  customData : List String
deriving DecidableEq

/-- CalloutCollection.addCalloutSource: create the entry if absent, add the
reporting source key to its sources, and mark the entry invalidated. -/
def addCalloutSource {Props : Type} (s : CalloutCollection Props)
    (id sourceKey : String) : CalloutCollection Props :=
  match mapGet s.cacheById id with
  | none =>
      let c : CachedCallout Props :=
        { id := id, sources := setAdd [] sourceKey, callout := none }
      { s with cacheById := mapSet s.cacheById id c
             , invalidated := setAdd s.invalidated id }
  | some c =>
      let c2 := { c with sources := setAdd c.sources sourceKey }
      { s with cacheById := mapSet s.cacheById id c2
             , invalidated := setAdd s.invalidated id }

/-- CalloutCollection.removeCalloutSource: drop the reporting source key from
the entry's sources; delete the entry (and its stale mark) when the last
source is removed. -/
def removeCalloutSource {Props : Type} (s : CalloutCollection Props)
    (id sourceKey : String) : CalloutCollection Props :=
  match mapGet s.cacheById id with
  | none => s
  | some c =>
      if setDelete c.sources sourceKey = [] then
        { s with cacheById := mapDelete s.cacheById id
               , invalidated := setDelete s.invalidated id }
      else
        { s with cacheById := mapSet s.cacheById id { c with sources := setDelete c.sources sourceKey } }

/-- The changed-loop body of CalloutCollection.invalidateSource: mark an
existing entry invalidated. -/
def markChanged {Props : Type} (s : CalloutCollection Props) (id : String) :
    CalloutCollection Props :=
  match mapGet s.cacheById id with
  | none => s
  | some _ => { s with invalidated := setAdd s.invalidated id }

/-- Increment the invalidation counter. -/
def bumpCount {Props : Type} (s : CalloutCollection Props) : CalloutCollection Props :=
  { s with invalidationCount := s.invalidationCount + 1 }

/-- CalloutCollection.invalidateSource (reportDiff): no-op before the cache is
built; otherwise process removed, then added, then changed, and increment the
invalidation counter once. The source key is sourceToKey of the reporting
source, computed once up front. -/
def invalidateSource {Props : Type} (s : CalloutCollection Props)
    (src : CalloutSource) (data : DiffData) : CalloutCollection Props :=
  if s.cached = false then s
  else
    bumpCount
      (data.changed.foldl markChanged
        (data.added.foldl (fun t a => addCalloutSource t a (sourceToKey src))
          (data.removed.foldl
            (fun t r => removeCalloutSource t r (sourceToKey src)) s)))

/-- CalloutCollection.invalidate: mark one entry invalidated; no-op when the
cache is unbuilt or the entry is absent. -/
def invalidate {Props : Type} (s : CalloutCollection Props) (id : String) :
    CalloutCollection Props :=
  if s.cached = false then s
  else
    match mapGet s.cacheById id with
    | none => s
    | some _ => { s with invalidated := setAdd s.invalidated id }

/-- CalloutCollection.hasChanged: capture the current invalidation count; the
returned closure compares the count of a later state with the snapshot. -/
def hasChanged {Props : Type} (s : CalloutCollection Props) :
    CalloutCollection Props → Bool :=
  let countSnapshot := s.invalidationCount
  fun t => t.invalidationCount != countSnapshot

/-- CalloutCollection.doResolve: intrinsic properties from the resolver, then
provenance decoded from the live sources set. -/
def doResolve {Props : Type} (resolver : String → Props)
    (c : CachedCallout Props) : CachedCallout Props :=
  let resolved : ResolvedCallout Props :=
    { props := resolver c.id, sources := c.sources.map sourceFromKey }
  { c with callout := some resolved }

/-- CalloutCollection.resolveOne: resolve the entry and drop it from the
invalidated set. -/
def resolveOne {Props : Type} (resolver : String → Props)
    (s : CalloutCollection Props) (id : String) (c : CachedCallout Props) :
    CalloutCollection Props :=
  { s with cacheById := mapSet s.cacheById id (doResolve resolver c)
         , invalidated := setDelete s.invalidated id }

/-- The start of CalloutCollection.buildCache: clear the invalidated set and
the table. -/
def clearCache {Props : Type} (s : CalloutCollection Props) : CalloutCollection Props :=
  { s with invalidated := ([] : List String)
         , cacheById := ([] : List (String × CachedCallout Props)) }

/-- The theme phase of buildCache: when an active theme id exists, add every
current theme name under that theme's source key. -/
def addThemeCallouts {Props : Type} (regs : Registries)
    (t : CalloutCollection Props) : CalloutCollection Props :=
  match regs.themeOld with
  | none => t
  | some th => regs.themeData.foldl
      (fun u c => addCalloutSource u c (sourceToKey (.theme th))) t

/-- The end of buildCache: mark the cache as built. -/
def markBuilt {Props : Type} (s : CalloutCollection Props) : CalloutCollection Props :=
  { s with cached := true }

/-- CalloutCollection.buildCache: clear the invalidated set and the table,
add every name of every registry (builtin, then active theme, then each
snippet, then custom) with its source key, and mark the cache as built. -/
def buildCache {Props : Type} (regs : Registries) (s : CalloutCollection Props) :
    CalloutCollection Props :=
  markBuilt
    (regs.customData.foldl
      (fun t c => addCalloutSource t c (sourceToKey .custom))
      (regs.snippetsData.foldl
        (fun t p => p.2.foldl
          (fun u c => addCalloutSource u c (sourceToKey (.snippet p.1))) t)
        (addThemeCallouts regs
          (regs.builtinData.foldl
            (fun t c => addCalloutSource t c (sourceToKey .builtin))
            (clearCache s)))))

/-- CalloutCollection.get, instrumented with the number of resolver
invocations it performs: build the cache if unbuilt, look the entry up,
resolve it first when it is invalidated, and return its resolved callout. -/
def getCalloutBuilt {Props : Type} (resolver : String → Props)
    (s1 : CalloutCollection Props) (id : String) :
    Option (ResolvedCallout Props) × CalloutCollection Props × Nat :=
  match mapGet s1.cacheById id with
  | none => (none, s1, 0)
  | some c =>
      if id ∈ s1.invalidated then
        ((doResolve resolver c).callout, resolveOne resolver s1 id c, 1)
      else
        (c.callout, s1, 0)

def getCallout {Props : Type} (resolver : String → Props) (regs : Registries)
    (s : CalloutCollection Props) (id : String) :
    Option (ResolvedCallout Props) × CalloutCollection Props × Nat :=
  getCalloutBuilt resolver (if s.cached = false then buildCache regs s else s) id

/-- A sequence of reportDiff calls applied in order. -/
def applyDiffs {Props : Type} (s : CalloutCollection Props)
    (calls : List (CalloutSource × DiffData)) : CalloutCollection Props :=
  calls.foldl (fun t p => invalidateSource t p.1 p.2) s

/-! Frame lemmas: which fields each cache operation leaves unchanged. -/

theorem addCalloutSource_count {Props : Type} (s : CalloutCollection Props)
    (id key : String) :
    (addCalloutSource s id key).invalidationCount = s.invalidationCount := by
  unfold addCalloutSource
  cases hm : mapGet s.cacheById id <;> rfl

theorem addCalloutSource_cached {Props : Type} (s : CalloutCollection Props)
    (id key : String) :
    (addCalloutSource s id key).cached = s.cached := by
  unfold addCalloutSource
  cases hm : mapGet s.cacheById id <;> rfl

theorem removeCalloutSource_count {Props : Type} (s : CalloutCollection Props)
    (id key : String) :
    (removeCalloutSource s id key).invalidationCount = s.invalidationCount := by
  unfold removeCalloutSource
  split
  · rfl
  · split <;> rfl

theorem removeCalloutSource_cached {Props : Type} (s : CalloutCollection Props)
    (id key : String) :
    (removeCalloutSource s id key).cached = s.cached := by
  unfold removeCalloutSource
  split
  · rfl
  · split <;> rfl

theorem markChanged_count {Props : Type} (s : CalloutCollection Props) (id : String) :
    (markChanged s id).invalidationCount = s.invalidationCount := by
  unfold markChanged
  cases hm : mapGet s.cacheById id <;> rfl

theorem markChanged_cached {Props : Type} (s : CalloutCollection Props) (id : String) :
    (markChanged s id).cached = s.cached := by
  unfold markChanged
  cases hm : mapGet s.cacheById id <;> rfl

theorem foldl_count_eq {α : Type} {Props : Type}
    (f : CalloutCollection Props → α → CalloutCollection Props)
    (hf : ∀ t x, (f t x).invalidationCount = t.invalidationCount) :
    ∀ (l : List α) (t : CalloutCollection Props),
      (l.foldl f t).invalidationCount = t.invalidationCount := by
  intro l
  induction l with
  | nil => intro t; rfl
  | cons x rest ih =>
      intro t
      rw [List.foldl_cons, ih (f t x), hf t x]

theorem foldl_cached_eq {α : Type} {Props : Type}
    (f : CalloutCollection Props → α → CalloutCollection Props)
    (hf : ∀ t x, (f t x).cached = t.cached) :
    ∀ (l : List α) (t : CalloutCollection Props),
      (l.foldl f t).cached = t.cached := by
  intro l
  induction l with
  | nil => intro t; rfl
  | cons x rest ih =>
      intro t
      rw [List.foldl_cons, ih (f t x), hf t x]

theorem invalidateSource_unbuilt {Props : Type} (s : CalloutCollection Props)
    (src : CalloutSource) (d : DiffData) (h : s.cached = false) :
    invalidateSource s src d = s := by
  unfold invalidateSource
  rw [if_pos h]

theorem invalidateSource_count {Props : Type} (s : CalloutCollection Props)
    (src : CalloutSource) (d : DiffData) (h : s.cached = true) :
    (invalidateSource s src d).invalidationCount = s.invalidationCount + 1 := by
  unfold invalidateSource
  rw [if_neg (by rw [h]; exact fun hh => Bool.noConfusion hh)]
  unfold bumpCount
  rw [foldl_count_eq markChanged (fun t x => markChanged_count t x)]
  rw [foldl_count_eq _ (fun t x => addCalloutSource_count t x (sourceToKey src))]
  rw [foldl_count_eq _ (fun t x => removeCalloutSource_count t x (sourceToKey src))]

theorem invalidateSource_cached {Props : Type} (s : CalloutCollection Props)
    (src : CalloutSource) (d : DiffData) :
    (invalidateSource s src d).cached = s.cached := by
  unfold invalidateSource
  by_cases h : s.cached = false
  · rw [if_pos h]
  · rw [if_neg h]
    unfold bumpCount
    show (d.changed.foldl markChanged _).cached = s.cached
    rw [foldl_cached_eq markChanged (fun t x => markChanged_cached t x)]
    rw [foldl_cached_eq _ (fun t x => addCalloutSource_cached t x (sourceToKey src))]
    rw [foldl_cached_eq _ (fun t x => removeCalloutSource_cached t x (sourceToKey src))]

theorem applyDiffs_count {Props : Type} (s : CalloutCollection Props)
    (calls : List (CalloutSource × DiffData)) (h : s.cached = true) :
    (applyDiffs s calls).invalidationCount = s.invalidationCount + calls.length := by
  induction calls generalizing s with
  | nil => rfl
  | cons p rest ih =>
      show (applyDiffs (invalidateSource s p.1 p.2) rest).invalidationCount = _
      rw [ih (invalidateSource s p.1 p.2) (by rw [invalidateSource_cached, h])]
      rw [invalidateSource_count s p.1 p.2 h, List.length_cons]
      omega

/-- C5: reportDiff is a complete no-op on an unbuilt cache; on a built cache
each call increments the change counter by exactly one regardless of the
diff contents; hence a hasChanged closure captured now reports a change
after a sequence of reportDiff calls iff the sequence is non-empty. -/
theorem reportDiff_counter {Props : Type} (s : CalloutCollection Props)
    (src : CalloutSource) (d : DiffData) (calls : List (CalloutSource × DiffData)) :
    (s.cached = false → invalidateSource s src d = s)
    ∧ (s.cached = true →
        (invalidateSource s src d).invalidationCount = s.invalidationCount + 1)
    ∧ (s.cached = true →
        (hasChanged s (applyDiffs s calls) = true ↔ calls ≠ [])) := by
  refine ⟨invalidateSource_unbuilt s src d, invalidateSource_count s src d, ?_⟩
  intro h
  unfold hasChanged
  rw [applyDiffs_count s calls h]
  constructor
  · intro hb hnil
    rw [hnil] at hb
    simp at hb
  · intro hnil
    have hlen : calls.length ≠ 0 := fun hz => hnil (List.length_eq_zero.mp hz)
    simp only [bne_iff_ne, ne_eq]
    omega

/-- C5 witness: concrete states exercising each hypothesis of
reportDiff_counter. -/
theorem reportDiff_counter_witness :
    (invalidateSource
        (⟨[], 0, [], false⟩ : CalloutCollection Nat) .builtin
        { added := ["note"], removed := [], changed := [] })
      = (⟨[], 0, [], false⟩ : CalloutCollection Nat)
    ∧ (invalidateSource
        (⟨[], 0, [], true⟩ : CalloutCollection Nat) .builtin
        { added := [], removed := [], changed := [] }).invalidationCount = 1
    ∧ (hasChanged (⟨[], 0, [], true⟩ : CalloutCollection Nat)
        (applyDiffs (⟨[], 0, [], true⟩ : CalloutCollection Nat)
          [(.builtin, { added := [], removed := [], changed := [] })]) = true
        ↔ ([(.builtin,
            ({ added := [], removed := [], changed := [] } : DiffData))]
              : List (CalloutSource × DiffData)) ≠ []) := by
  refine ⟨?_, ?_, ?_⟩
  · exact (reportDiff_counter (⟨[], 0, [], false⟩ : CalloutCollection Nat) .builtin
      { added := ["note"], removed := [], changed := [] } []).1 rfl
  · exact (reportDiff_counter (⟨[], 0, [], true⟩ : CalloutCollection Nat) .builtin
      { added := [], removed := [], changed := [] } []).2.1 rfl
  · exact (reportDiff_counter (⟨[], 0, [], true⟩ : CalloutCollection Nat) .builtin
      { added := [], removed := [], changed := [] }
      [(.builtin, { added := [], removed := [], changed := [] })]).2.2 rfl

/-- C9: the public invalidate operation is a no-op on an unbuilt cache or an
absent entry; on a built cache with an existing entry it only adds the entry
to the invalidated set, leaving the table, the entry, and the change counter
unchanged, so a previously captured hasChanged closure still reports false. -/
theorem invalidate_frame {Props : Type} (s : CalloutCollection Props) (id : String) :
    (s.cached = false → invalidate s id = s)
    ∧ (mapGet s.cacheById id = none → invalidate s id = s)
    ∧ (∀ c, s.cached = true → mapGet s.cacheById id = some c →
        invalidate s id = { s with invalidated := setAdd s.invalidated id })
    ∧ hasChanged s (invalidate s id) = false := by
  have hcount : (invalidate s id).invalidationCount = s.invalidationCount := by
    unfold invalidate
    by_cases h : s.cached = false
    · rw [if_pos h]
    · rw [if_neg h]
      cases hm : mapGet s.cacheById id <;> rfl
  refine ⟨?_, ?_, ?_, ?_⟩
  · intro h
    unfold invalidate
    rw [if_pos h]
  · intro h
    unfold invalidate
    by_cases hc : s.cached = false
    · rw [if_pos hc]
    · rw [if_neg hc, h]
  · intro c hc hm
    unfold invalidate
    rw [if_neg (by rw [hc]; exact fun hh => Bool.noConfusion hh), hm]
  · unfold hasChanged
    rw [hcount]
    simp

/-- C9 witness: concrete states exercising each hypothesis of
invalidate_frame. -/
theorem invalidate_frame_witness :
    (invalidate (⟨[], 0, [], false⟩ : CalloutCollection Nat) "note"
      = (⟨[], 0, [], false⟩ : CalloutCollection Nat))
    ∧ (invalidate (⟨[], 0, [], true⟩ : CalloutCollection Nat) "note"
      = (⟨[], 0, [], true⟩ : CalloutCollection Nat))
    ∧ (invalidate
        (⟨[], 0, [("note", ⟨"note", ["builtin"], none⟩)], true⟩
          : CalloutCollection Nat) "note"
      = (⟨["note"], 0, [("note", ⟨"note", ["builtin"], none⟩)], true⟩
          : CalloutCollection Nat)) := by
  refine ⟨?_, ?_, ?_⟩
  · exact (invalidate_frame (⟨[], 0, [], false⟩ : CalloutCollection Nat) "note").1 rfl
  · exact (invalidate_frame (⟨[], 0, [], true⟩ : CalloutCollection Nat) "note").2.1 rfl
  · have h := (invalidate_frame
      (⟨[], 0, [("note", ⟨"note", ["builtin"], none⟩)], true⟩
        : CalloutCollection Nat) "note").2.2.1
      ⟨"note", ["builtin"], none⟩ rfl rfl
    rw [h]
    rfl

/-! The two cache invariants and their preservation. -/

/-- The table and stale-set invariants of the cache: every table entry has a
non-empty sources set, and every stale id references a table entry. -/
def cacheInv {Props : Type} (s : CalloutCollection Props) : Prop :=
  (∀ id c, mapGet s.cacheById id = some c → c.sources ≠ [])
  ∧ (∀ id, id ∈ s.invalidated → mapGet s.cacheById id ≠ none)

theorem foldl_pres {α β : Type} (P : β → Prop) (f : β → α → β)
    (hf : ∀ t x, P t → P (f t x)) :
    ∀ (l : List α) (t : β), P t → P (l.foldl f t) := by
  intro l
  induction l with
  | nil => intro t ht; exact ht
  | cons x rest ih => intro t ht; exact ih (f t x) (hf t x ht)

theorem addCalloutSource_invalidated {Props : Type} (s : CalloutCollection Props)
    (id key : String) :
    (addCalloutSource s id key).invalidated = setAdd s.invalidated id := by
  unfold addCalloutSource
  split <;> rfl

theorem addCalloutSource_cacheById {Props : Type} (s : CalloutCollection Props)
    (id key : String) :
    (addCalloutSource s id key).cacheById
      = mapSet s.cacheById id
          (match mapGet s.cacheById id with
           | none => ⟨id, setAdd [] key, none⟩
           | some c => { c with sources := setAdd c.sources key }) := by
  unfold addCalloutSource
  split <;> rfl

theorem removeCalloutSource_invalidated {Props : Type} (s : CalloutCollection Props)
    (id key : String) :
    (removeCalloutSource s id key).invalidated
      = (match mapGet s.cacheById id with
         | none => s.invalidated
         | some c =>
             if setDelete c.sources key = [] then setDelete s.invalidated id
             else s.invalidated) := by
  unfold removeCalloutSource
  split
  · rfl
  · split <;> rfl

theorem removeCalloutSource_cacheById {Props : Type} (s : CalloutCollection Props)
    (id key : String) :
    (removeCalloutSource s id key).cacheById
      = (match mapGet s.cacheById id with
         | none => s.cacheById
         | some c =>
             if setDelete c.sources key = [] then mapDelete s.cacheById id
             else mapSet s.cacheById id { c with sources := setDelete c.sources key }) := by
  unfold removeCalloutSource
  split
  · rfl
  · split <;> rfl

theorem markChanged_invalidated {Props : Type} (s : CalloutCollection Props)
    (id : String) :
    (markChanged s id).invalidated
      = (match mapGet s.cacheById id with
         | none => s.invalidated
         | some _ => setAdd s.invalidated id) := by
  unfold markChanged
  split <;> rfl

theorem markChanged_cacheById {Props : Type} (s : CalloutCollection Props)
    (id : String) :
    (markChanged s id).cacheById = s.cacheById := by
  unfold markChanged
  split <;> rfl

theorem cacheInv_addCalloutSource {Props : Type} (s : CalloutCollection Props)
    (id key : String) (h : cacheInv s) : cacheInv (addCalloutSource s id key) := by
  obtain ⟨h1, h2⟩ := h
  constructor
  · intro id2 c2 hc2
    rw [addCalloutSource_cacheById] at hc2
    by_cases hid : id2 = id
    · subst hid
      rw [mapGet_mapSet_self] at hc2
      injection hc2 with hc3
      subst hc3
      cases hm : mapGet s.cacheById id2 with
      | none => exact setAdd_ne_nil [] key
      | some c => exact setAdd_ne_nil c.sources key
    · rw [mapGet_mapSet_ne _ _ _ _ hid] at hc2
      exact h1 id2 c2 hc2
  · intro id2 hi2
    rw [addCalloutSource_invalidated, mem_setAdd] at hi2
    rw [addCalloutSource_cacheById]
    by_cases hid : id2 = id
    · subst hid
      rw [mapGet_mapSet_self]
      exact fun hh => Option.noConfusion hh
    · rw [mapGet_mapSet_ne _ _ _ _ hid]
      rcases hi2 with hi2 | rfl
      · exact h2 id2 hi2
      · exact absurd rfl hid


theorem cacheInv_removeCalloutSource {Props : Type} (s : CalloutCollection Props)
    (id key : String) (h : cacheInv s) : cacheInv (removeCalloutSource s id key) := by
  obtain ⟨h1, h2⟩ := h
  constructor
  · intro id2 c2 hc2
    rw [removeCalloutSource_cacheById] at hc2
    cases hm : mapGet s.cacheById id with
    | none =>
        rw [hm] at hc2
        exact h1 id2 c2 hc2
    | some c =>
        rw [hm] at hc2
        dsimp only at hc2
        by_cases hs : setDelete c.sources key = []
        · rw [if_pos hs] at hc2
          by_cases hid : id2 = id
          · subst hid
            rw [mapGet_mapDelete_self] at hc2
            exact Option.noConfusion hc2
          · rw [mapGet_mapDelete_ne _ _ _ hid] at hc2
            exact h1 id2 c2 hc2
        · rw [if_neg hs] at hc2
          by_cases hid : id2 = id
          · subst hid
            rw [mapGet_mapSet_self] at hc2
            injection hc2 with hc3
            rw [← hc3]
            exact hs
          · rw [mapGet_mapSet_ne _ _ _ _ hid] at hc2
            exact h1 id2 c2 hc2
  · intro id2 hi2
    rw [removeCalloutSource_invalidated] at hi2
    rw [removeCalloutSource_cacheById]
    cases hm : mapGet s.cacheById id with
    | none =>
        rw [hm] at hi2
        exact h2 id2 hi2
    | some c =>
        rw [hm] at hi2
        dsimp only at hi2 ⊢
        by_cases hs : setDelete c.sources key = []
        · rw [if_pos hs] at hi2
          rw [if_pos hs]
          obtain ⟨hmem, hne⟩ := (mem_setDelete s.invalidated id id2).mp hi2
          rw [mapGet_mapDelete_ne _ _ _ hne]
          exact h2 id2 hmem
        · rw [if_neg hs] at hi2
          rw [if_neg hs]
          by_cases hid : id2 = id
          · subst hid
            rw [mapGet_mapSet_self]
            exact fun hh => Option.noConfusion hh
          · rw [mapGet_mapSet_ne _ _ _ _ hid]
            exact h2 id2 hi2

theorem cacheInv_markChanged {Props : Type} (s : CalloutCollection Props)
    (id : String) (h : cacheInv s) : cacheInv (markChanged s id) := by
  obtain ⟨h1, h2⟩ := h
  constructor
  · intro id2 c2 hc2
    rw [markChanged_cacheById] at hc2
    exact h1 id2 c2 hc2
  · intro id2 hi2
    rw [markChanged_invalidated] at hi2
    rw [markChanged_cacheById]
    cases hm : mapGet s.cacheById id with
    | none =>
        rw [hm] at hi2
        exact h2 id2 hi2
    | some c =>
        rw [hm] at hi2
        rw [mem_setAdd] at hi2
        rcases hi2 with hi2 | rfl
        · exact h2 id2 hi2
        · rw [hm]
          exact fun hh => Option.noConfusion hh

theorem cacheInv_clearCache {Props : Type} (s : CalloutCollection Props) :
    cacheInv (clearCache s) :=
  ⟨fun _ _ hc => Option.noConfusion hc,
   fun id hi => absurd hi (List.not_mem_nil id)⟩

theorem cacheInv_buildCache {Props : Type} (regs : Registries)
    (s : CalloutCollection Props) : cacheInv (buildCache regs s) := by
  have h0 : cacheInv (clearCache s) := cacheInv_clearCache s
  have h1 := foldl_pres cacheInv _
    (fun t x ht => cacheInv_addCalloutSource t x (sourceToKey .builtin) ht)
    regs.builtinData (clearCache s) h0
  have h2 : cacheInv (addThemeCallouts regs
      (regs.builtinData.foldl
        (fun t c => addCalloutSource t c (sourceToKey .builtin)) (clearCache s))) := by
    unfold addThemeCallouts
    cases regs.themeOld with
    | none => exact h1
    | some th =>
        exact foldl_pres cacheInv _
          (fun t x ht => cacheInv_addCalloutSource t x (sourceToKey (.theme th)) ht)
          regs.themeData _ h1
  have h3 := foldl_pres cacheInv _
    (fun t p ht => foldl_pres cacheInv _
      (fun u c hu => cacheInv_addCalloutSource u c (sourceToKey (.snippet p.1)) hu)
      p.2 t ht)
    regs.snippetsData _ h2
  have h4 := foldl_pres cacheInv _
    (fun t x ht => cacheInv_addCalloutSource t x (sourceToKey .custom) ht)
    regs.customData _ h3
  exact h4

theorem cacheInv_invalidateSource {Props : Type} (s : CalloutCollection Props)
    (src : CalloutSource) (d : DiffData) (h : cacheInv s) :
    cacheInv (invalidateSource s src d) := by
  unfold invalidateSource
  by_cases hc : s.cached = false
  · rw [if_pos hc]
    exact h
  · rw [if_neg hc]
    exact foldl_pres cacheInv markChanged
      (fun t x ht => cacheInv_markChanged t x ht) d.changed _
      (foldl_pres cacheInv _
        (fun t x ht => cacheInv_addCalloutSource t x (sourceToKey src) ht) d.added _
        (foldl_pres cacheInv _
          (fun t x ht => cacheInv_removeCalloutSource t x (sourceToKey src) ht)
          d.removed s h))

/-- C4: after the one-time build, any sequence of reportDiff calls preserves
both cache invariants: every table entry has a non-empty sources set (so an
entry exists iff some source still provides it, and an entry whose last
source was removed is gone), and the stale set only references entries
present in the table. -/
theorem build_reportDiff_invariants {Props : Type} (regs : Registries)
    (s : CalloutCollection Props) (calls : List (CalloutSource × DiffData)) :
    cacheInv (applyDiffs (buildCache regs s) calls) := by
  unfold applyDiffs
  exact foldl_pres cacheInv (fun t p => invalidateSource t p.1 p.2)
    (fun t p ht => cacheInv_invalidateSource t p.1 p.2 ht) calls
    (buildCache regs s) (cacheInv_buildCache regs s)

/-! Lazy resolution: equations for get and the idempotence results. -/

theorem buildCache_cached {Props : Type} (regs : Registries)
    (s : CalloutCollection Props) : (buildCache regs s).cached = true := rfl

theorem afterBuild_cached {Props : Type} (regs : Registries)
    (s : CalloutCollection Props) :
    (if s.cached = false then buildCache regs s else s).cached = true := by
  by_cases h : s.cached = false
  · rw [if_pos h]
    exact buildCache_cached regs s
  · rw [if_neg h]
    simpa using h

theorem getCalloutBuilt_eq_none {Props : Type} (resolver : String → Props)
    (t : CalloutCollection Props) (id : String)
    (hm : mapGet t.cacheById id = none) :
    getCalloutBuilt resolver t id = (none, t, 0) := by
  unfold getCalloutBuilt
  rw [hm]

theorem getCalloutBuilt_eq_stale {Props : Type} (resolver : String → Props)
    (t : CalloutCollection Props) (id : String) (c : CachedCallout Props)
    (hm : mapGet t.cacheById id = some c) (hstale : id ∈ t.invalidated) :
    getCalloutBuilt resolver t id
      = ((doResolve resolver c).callout, resolveOne resolver t id c, 1) := by
  unfold getCalloutBuilt
  rw [hm]
  dsimp only
  rw [if_pos hstale]

theorem getCalloutBuilt_eq_fresh {Props : Type} (resolver : String → Props)
    (t : CalloutCollection Props) (id : String) (c : CachedCallout Props)
    (hm : mapGet t.cacheById id = some c) (hstale : id ∉ t.invalidated) :
    getCalloutBuilt resolver t id = (c.callout, t, 0) := by
  unfold getCalloutBuilt
  rw [hm]
  dsimp only
  rw [if_neg hstale]

theorem getCalloutBuilt_cached {Props : Type} (resolver : String → Props)
    (t : CalloutCollection Props) (id : String) :
    ((getCalloutBuilt resolver t id).2.1).cached = t.cached := by
  unfold getCalloutBuilt
  split
  · rfl
  · split <;> rfl

theorem getCalloutBuilt_idem {Props : Type} (resolver : String → Props)
    (t : CalloutCollection Props) (id : String) :
    ((getCalloutBuilt resolver (getCalloutBuilt resolver t id).2.1 id).1
      = (getCalloutBuilt resolver t id).1)
    ∧ ((getCalloutBuilt resolver (getCalloutBuilt resolver t id).2.1 id).2.1
      = (getCalloutBuilt resolver t id).2.1)
    ∧ ((getCalloutBuilt resolver t id).2.2
        + (getCalloutBuilt resolver (getCalloutBuilt resolver t id).2.1 id).2.2 ≤ 1) := by
  cases hm : mapGet t.cacheById id with
  | none =>
      rw [getCalloutBuilt_eq_none resolver t id hm]
      dsimp only
      rw [getCalloutBuilt_eq_none resolver t id hm]
      exact ⟨rfl, rfl, by simp⟩
  | some c =>
      by_cases hstale : id ∈ t.invalidated
      · rw [getCalloutBuilt_eq_stale resolver t id c hm hstale]
        dsimp only
        have hm2 : mapGet (resolveOne resolver t id c).cacheById id
            = some (doResolve resolver c) :=
          mapGet_mapSet_self t.cacheById id (doResolve resolver c)
        have hst2 : id ∉ (resolveOne resolver t id c).invalidated := by
          intro hmem
          exact ((mem_setDelete t.invalidated id id).mp hmem).2 rfl
        rw [getCalloutBuilt_eq_fresh resolver _ id (doResolve resolver c) hm2 hst2]
        exact ⟨rfl, rfl, by simp⟩
      · rw [getCalloutBuilt_eq_fresh resolver t id c hm hstale]
        dsimp only
        rw [getCalloutBuilt_eq_fresh resolver t id c hm hstale]
        exact ⟨rfl, rfl, by simp⟩

/-- C6: calling get twice in a row with no intervening mutation returns the
identical resolved value both times, leaves the state of the second call
identical to the state after the first, and invokes the resolver at most
once across the two calls. -/
theorem get_idempotent {Props : Type} (resolver : String → Props)
    (regs : Registries) (s : CalloutCollection Props) (id : String) :
    ((getCallout resolver regs (getCallout resolver regs s id).2.1 id).1
      = (getCallout resolver regs s id).1)
    ∧ ((getCallout resolver regs (getCallout resolver regs s id).2.1 id).2.1
      = (getCallout resolver regs s id).2.1)
    ∧ ((getCallout resolver regs s id).2.2
        + (getCallout resolver regs (getCallout resolver regs s id).2.1 id).2.2 ≤ 1) := by
  have hx : ((getCalloutBuilt resolver
      (if s.cached = false then buildCache regs s else s) id).2.1).cached = true := by
    rw [getCalloutBuilt_cached]
    exact afterBuild_cached regs s
  unfold getCallout
  rw [if_neg (by rw [hx]; exact fun hh => Bool.noConfusion hh)]
  exact getCalloutBuilt_idem resolver _ id

/-- C7: when get resolves a stale entry, the returned value's intrinsic
properties are exactly the resolver's output for the entry's name, and its
provenance is exactly the decoding of every key in the entry's sources set
as it stands at resolution time — independent of whatever resolved value the
entry carried before. -/
theorem resolve_fresh_provenance {Props : Type} (resolver : String → Props)
    (regs : Registries) (s : CalloutCollection Props) (id : String)
    (c : CachedCallout Props) (hcached : s.cached = true)
    (hm : mapGet s.cacheById id = some c) (hstale : id ∈ s.invalidated) :
    (getCallout resolver regs s id).1
      = some { props := resolver c.id, sources := c.sources.map sourceFromKey } := by
  unfold getCallout
  rw [if_neg (by rw [hcached]; exact fun hh => Bool.noConfusion hh)]
  rw [getCalloutBuilt_eq_stale resolver s id c hm hstale]
  rfl

/-- C7 witness: a concrete stale entry whose previously resolved value holds
different properties and stale provenance; get returns the freshly resolved
properties and the provenance decoded from the live sources set. -/
theorem resolve_fresh_provenance_witness :
    (getCallout (fun _ => (7 : Nat)) ⟨[], [], none, [], []⟩
      (⟨["note"], 0, [("note", ⟨"note", ["custom"], some ⟨5, [some .builtin]⟩⟩)], true⟩
        : CalloutCollection Nat) "note").1
      = some ⟨7, [some CalloutSource.custom]⟩ := by
  have h := resolve_fresh_provenance (fun _ => (7 : Nat)) ⟨[], [], none, [], []⟩
    (⟨["note"], 0, [("note", ⟨"note", ["custom"], some ⟨5, [some .builtin]⟩⟩)], true⟩
      : CalloutCollection Nat) "note" ⟨"note", ["custom"], some ⟨5, [some .builtin]⟩⟩
    rfl rfl (List.mem_cons_self "note" [])
  rw [h]
  rfl

/-! Registry-level results. -/

/-- C1: the theme registry never reports two diffs. Because set assigns
this.oldTheme before comparing it against the new theme id, the comparison
always succeeds and the two-report branch for a changed theme id is dead
code; at the concrete input where the active theme "a" owns name "x" and
set("b", ["y"]) is called, the registry reports a single diff under the new
theme id that diffs the old membership against the new one, not the two
claimed independent diffs. -/
theorem themeSet_single_report :
    (∀ (r : ThemeReg) (theme : String) (callouts : List String),
      ((themeSet r theme callouts).2).length = 1)
    ∧ (themeSet { data := ["x"], oldTheme := some "a" } "b" ["y"]).2
        = [(CalloutSource.theme "b",
            { added := ["y"], removed := ["x"], changed := [] })]
    ∧ (themeSet { data := ["x"], oldTheme := some "a" } "b" ["y"]).2
        ≠ [(CalloutSource.theme "a",
            { added := [], removed := ["x"], changed := [] }),
           (CalloutSource.theme "b",
            { added := ["y"], removed := [], changed := [] })] := by
  refine ⟨?_, by decide, by decide⟩
  intro r theme callouts
  unfold themeSet
  dsimp only
  split
  · rfl
  · rename_i hne
    exact absurd rfl hne

/-- C2: deleting a name that is not in the custom registry is not a silent
no-op. findIndex returns -1 for an absent name, the source compares the
index against undefined instead of -1, and splice(-1, 1) removes the last
element; the absent name is also reported as removed. Concretely, with
stored sequence ["a", "b"], delete("c") yields ["a"] and reports "c" as
removed. -/
theorem customDelete_absent_not_noop :
    customDelete ["a", "b"] ["c"]
      = (["a"], [(CalloutSource.custom,
          { added := [], removed := ["c"], changed := [] })])
    ∧ customDelete ["a", "b"] ["c"] ≠ (["a", "b"], []) := by
  exact ⟨by decide, by decide⟩

/-- C8: a snippets-registry set over existing membership old reports exactly
one diff whose added names are those of the new list absent from old, whose
removed names are those of old absent from the new list, and whose changed
names are those in both; with no prior membership for the snippet id, every
supplied name is reported added with removed and changed empty; and the
concrete scenario set("s1", ["tip"]) then set("s1", ["tip", "note"]) reports
added = ["note"], removed = [], changed = ["tip"]. -/
theorem snippetsSet_diff (data : List (String × List String)) (id : String)
    (old new : List String) :
    (mapGet data id = some old →
      ∃ dd, (snippetsSet data id new).2 = [(CalloutSource.snippet id, dd)]
        ∧ (∀ x, x ∈ dd.added ↔ x ∈ new ∧ x ∉ old)
        ∧ (∀ x, x ∈ dd.removed ↔ x ∈ old ∧ x ∉ new)
        ∧ (∀ x, x ∈ dd.changed ↔ x ∈ old ∧ x ∈ new))
    ∧ (mapGet data id = none →
      (snippetsSet data id new).2
        = [(CalloutSource.snippet id,
            { added := new, changed := [], removed := [] })])
    ∧ (snippetsSet (snippetsSet [] "s1" ["tip"]).1 "s1" ["tip", "note"]).2
        = [(CalloutSource.snippet "s1",
            { added := ["note"], removed := [], changed := ["tip"] })] := by
  refine ⟨?_, ?_, by decide⟩
  · intro h
    unfold snippetsSet
    rw [h]
    dsimp only
    refine ⟨_, rfl, ?_, ?_, ?_⟩
    · intro x
      rw [mem_diff_added, mem_listToSet]
    · intro x
      rw [mem_diff_removed, mem_listToSet]
    · intro x
      rw [mem_diff_same, mem_listToSet]
  · intro h
    unfold snippetsSet
    rw [h]

/-- C8 witness: the general part of snippetsSet_diff applied at the concrete
prior membership ["tip"] and new membership ["tip", "note"]. -/
theorem snippetsSet_diff_witness :
    ∃ dd, (snippetsSet [("s1", ["tip"])] "s1" ["tip", "note"]).2
        = [(CalloutSource.snippet "s1", dd)]
      ∧ (∀ x, x ∈ dd.added ↔ x ∈ ["tip", "note"] ∧ x ∉ ["tip"])
      ∧ (∀ x, x ∈ dd.removed ↔ x ∈ ["tip"] ∧ x ∉ ["tip", "note"])
      ∧ (∀ x, x ∈ dd.changed ↔ x ∈ ["tip"] ∧ x ∈ ["tip", "note"]) :=
  (snippetsSet_diff [("s1", ["tip"])] "s1" ["tip"] ["tip", "note"]).1 rfl

end CalloutSuggestions
